import Mathlib

/-!
Shallow embedding of the skydb package (skydb/__init__.py): a three-level
index over sky-probe HDR captures (SkyDB, SkyInterval, SkyProbe), with
nearest-timestamp lookup, sun-visibility classification and two
tone-mapping operators.

Modelling conventions:
* a filesystem path is a list of its components (List String);
* the filesystem seen by the constructors is a finite tree (FS below);
* HDR pixel buffers are flat lists of exact rationals (for tmoGamma,
  which takes a real power, flat lists of reals);
* the external EnvironmentMap decoder is an abstract parameter
  decode : List String -> List Rat giving the pixel buffer of a path;
* Python exceptions are modelled by Except SkyError.
-/

set_option maxRecDepth 4000

/-- Errors raised by the Python code paths modelled here: ValueError from
datetime construction with out-of-range fields, ValueError from np.argmin
on an empty sequence, IndexError from list indexing, NotImplementedError
from the mean_light_vector stub. -/
inductive SkyError where
  | valueErrorRange
  | valueErrorEmptyArgmin
  | indexError
  | notImplementedError
deriving DecidableEq, Repr

mutual
/-- A filesystem node: a plain file or a directory with an ordered list of
children (the order models the platform-dependent listdir order). -/
inductive FS where
  | file (name : String)
  | dir (name : String) (children : FSList)
deriving DecidableEq

inductive FSList where
  | nil
  | cons (hd : FS) (tl : FSList)
deriving DecidableEq
end

def FS.name : FS → String
  | .file n => n
  | .dir n _ => n

def FS.isDir : FS → Bool
  | .file _ => false
  | .dir _ _ => true

def FSList.toList : FSList → List FS
  | .nil => []
  | .cons c tl => c :: FSList.toList tl

/-- Files named envmap.exr among the entries of one directory whose path is
p, in listing order: models the per-directory fnmatch.filter(filenames,
'envmap.exr') step of SkyInterval.__init__. -/
def matchFiles (p : List String) : FSList → List (List String)
  | .nil => []
  | .cons (FS.file fn) tl =>
      (if fn = "envmap.exr" then [p ++ [fn]] else []) ++ matchFiles p tl
  | .cons (FS.dir _ _) tl => matchFiles p tl

mutual
/-- os.walk(cur/fs) restricted to collecting matches of envmap.exr:
top-down, the current directory first, then each subdirectory in listing
order. Walking a plain file yields nothing. -/
def walkFS (cur : List String) : FS → List (List String)
  | .file _ => []
  | .dir n cs => matchFiles (cur ++ [n]) cs ++ walkKids (cur ++ [n]) cs

def walkKids (p : List String) : FSList → List (List String)
  | .nil => []
  | .cons c tl => walkFS p c ++ walkKids p tl
end

/-- Python int() on a plain decimal-digit string. The probe directory names
the claims exercise are digit strings; on anything else int() would raise
ValueError, which is outside every claim's scope, so the model returns 0
there. -/
def pyInt (s : String) : ℤ :=
  if s.data ≠ [] ∧ s.data.all (fun c => c.isDigit) then
    ((s.data.foldl (fun acc c => 10 * acc + (c.toNat - 48)) 0 : ℕ) : ℤ)
  else 0

/-- Python string slicing s[a:b] (for 0 ≤ a ≤ b within the string). -/
def sliceStr (s : String) (a b : ℕ) : String :=
  String.mk ((s.data.drop a).take (b - a))

/-- datetime.datetime(year=1, month=1, day=1, hour, minute, second),
represented by the seconds elapsed since that fixed date's midnight; the
constructor raises ValueError when a field is out of range, modelled by
none. Differences of two such datetimes in seconds are exactly differences
of the representations. -/
def mkDatetimeSecs (h m s : ℤ) : Option ℤ :=
  if 0 ≤ h ∧ h ≤ 23 ∧ 0 ≤ m ∧ m ≤ 59 ∧ 0 ≤ s ∧ s ≤ 59 then
    some (h * 3600 + m * 60 + s)
  else none

/-- The reference timestamp SkyInterval.__init__ builds for a probe whose
time string is t: datetime(1,1,1, int(t[:2]), int(t[2:4]), int(t[4:6])),
as seconds since the fixed date's midnight. The claims only exercise
in-range HHMMSS strings, for which the datetime constructor succeeds. -/
def hmsSecs (t : String) : ℤ :=
  pyInt (sliceStr t 0 2) * 3600 + pyInt (sliceStr t 2 4) * 60 + pyInt (sliceStr t 4 6)

/-- A SkyProbe: its path and the pixel buffer of its decoded environment
map (self.envmap.data, flattened). Decoding itself is the external
EnvironmentMap collaborator, passed in as a function of the path. -/
structure SkyProbe where
  path : List String
  data : List ℚ
deriving DecidableEq, Inhabited

/-- SkyProbe.time: os.path.normpath(self.path).split(os.sep)[-2], the name
of the probe's parent directory, re-derived from the path at each access. -/
def SkyProbe.time (p : SkyProbe) : String :=
  p.path.reverse.getD 1 ""

/-- SkyProbe.sun_visible: self.envmap.data.max() > 5000. numpy max over a
nonempty buffer is modelled by List.max?; a decoded image is nonempty. -/
def SkyProbe.sun_visible (p : SkyProbe) : Bool :=
  match p.data.max? with
  | some mx => decide ((5000 : ℚ) < mx)
  | none => false

/-- SkyProbe.pictureHDR: the raw decoded HDR pixel buffer. -/
def SkyProbe.pictureHDR (p : SkyProbe) : List ℚ :=
  p.data

/-- SkyProbe.mean_light_vector: raise NotImplementedError(). -/
def SkyProbe.mean_light_vector (_p : SkyProbe) : Except SkyError (List ℚ) :=
  Except.error SkyError.notImplementedError

/-- Elementwise clamp of one value: numpy clip sends x below lo to lo and
above hi to hi (for lo ≤ hi). -/
def clip (x lo hi : ℚ) : ℚ :=
  max lo (min x hi)

/-- np.clip over a buffer: elementwise clamp. -/
def npClip (l : List ℚ) (lo hi : ℚ) : List ℚ :=
  l.map (fun x => clip x lo hi)

/-- astype('uint8') on one float already clipped into [0, 255]: the C cast
truncates toward zero, which on nonnegative values is the floor. -/
def quantU8 (x : ℚ) : ℕ :=
  (⌊x⌋).toNat

/-- astype('uint8') over a buffer. -/
def astypeUint8 (l : List ℚ) : List ℕ :=
  l.map quantU8

/-- SkyProbe.tmoReinhard2002:
np.clip(scale * data / (1. + data), 0., 255.).astype('uint8'),
elementwise over the HDR buffer; scale defaults to 700. -/
def tmoReinhard2002 (data : List ℚ) (scale : ℚ := 700) : List ℕ :=
  astypeUint8 (npClip (data.map (fun L => scale * L / (1 + L))) 0 255)

/-- A SkyInterval after construction: its path, its probes, the parallel
list of reference timestamps, and the sun-visibility fraction derived once
at construction. -/
structure SkyInterval where
  path : List String
  probes : List SkyProbe
  reftimes : List ℤ
  sun_visibility : ℚ
deriving DecidableEq, Inhabited

/-- SkyInterval.date: os.path.normpath(self.path).split(os.sep)[-1], the
interval's own directory name. -/
def SkyInterval.date (iv : SkyInterval) : String :=
  iv.path.reverse.getD 0 ""

/-- SkyInterval.__init__(path): walk the directory for envmap.exr files,
build one SkyProbe per match (in walk order), build the parallel reference
timestamps from each probe's HHMMSS time string, and derive
sun_visibility = (number of probes with sun_visible) / (number of probes),
or 0 when there are no probes. -/
def mkSkyInterval (cur : List String) (fs : FS) (decode : List String → List ℚ) :
    SkyInterval :=
  let found := walkFS cur fs
  let probes := found.map (fun mp => SkyProbe.mk mp (decode mp))
  { path := cur ++ [fs.name]
    probes := probes
    reftimes := probes.map (fun probe => hmsSecs probe.time)
    sun_visibility :=
      if probes.length > 0 then
        ((probes.countP (fun x => x.sun_visible) : ℚ) / (probes.length : ℚ))
      else 0 }

/-- Minimum of a nonempty list of integers (0 on []). -/
def listMinI : List ℤ → ℤ
  | [] => 0
  | [x] => x
  | x :: y :: t => min x (listMinI (y :: t))

/-- First index of the minimum of a nonempty list (0 on []): the observable
behaviour of np.argmin, which scans left to right and only moves on a
strictly smaller value, so ties resolve to the earliest index. -/
def argminIdx : List ℤ → ℕ
  | [] => 0
  | [_] => 0
  | x :: y :: t => if x ≤ listMinI (y :: t) then 0 else argminIdx (y :: t) + 1

/-- SkyInterval.closestProbe(hours, minutes, seconds): build the fixed-date
query datetime (ValueError when a field is out of range), take
np.argmin over the absolute differences in seconds against every stored
reference timestamp (ValueError on an empty sequence), and return the probe
at that index (IndexError when the probes list is shorter). minutes and
seconds default to 0 in the source. -/
def SkyInterval.closestProbe (iv : SkyInterval) (hours : ℤ)
    (minutes : ℤ := 0) (seconds : ℤ := 0) : Except SkyError SkyProbe :=
  match mkDatetimeSecs hours minutes seconds with
  | none => Except.error SkyError.valueErrorRange
  | some q =>
    let diffs := iv.reftimes.map (fun t => |q - t|)
    if diffs = [] then Except.error SkyError.valueErrorEmptyArgmin
    else
      match iv.probes[argminIdx diffs]? with
      | some p => Except.ok p
      | none => Except.error SkyError.indexError

/-- The database: the interval directory paths and the intervals built from
them, in listing order. -/
structure SkyDB where
  intervals_dates : List (List String)
  intervals : List SkyInterval
deriving DecidableEq

/-- SkyDB.__init__(path): list the immediate subdirectories of the root (in
listing order, keeping only directories) and build one SkyInterval per
subdirectory. listdir on a non-directory raises, which no claim exercises,
so the model returns the empty database there. -/
def mkSkyDB (cur : List String) (fs : FS) (decode : List String → List ℚ) : SkyDB :=
  match fs with
  | FS.file _ => { intervals_dates := [], intervals := [] }
  | FS.dir n cs =>
    let p := cur ++ [n]
    let dirs := cs.toList.filter FS.isDir
    { intervals_dates := dirs.map (fun c => p ++ [c.name])
      intervals := dirs.map (fun c => mkSkyInterval p c decode) }

/-- True elapsed time-of-day distance between two second counts when the
day wraps around midnight (86400 seconds): the shorter way around the
circle. The source's closestProbe does not use this; its own TODO comment
records that it compares on the fixed date only. -/
def circularDistSecs (a b : ℤ) : ℤ :=
  min |a - b| (86400 - |a - b|)

/-- tmoGamma works with a real power (np.power(data, 1./gamma)), so its
model lives over the reals: the buffer minimum (self.envmap.data.min(),
over a nonempty buffer; 0 on [] where numpy raises). -/
noncomputable def listMinR : List ℝ → ℝ
  | [] => 0
  | x :: xs => xs.foldl min x

/-- Elementwise clamp over the reals, as clip above. -/
noncomputable def clipR (x lo hi : ℝ) : ℝ :=
  max lo (min x hi)

/-- astype('uint8') on one real already clipped into [0, 255]. -/
noncomputable def quantU8R (x : ℝ) : ℕ :=
  (⌊x⌋).toNat

/-- SkyProbe.tmoGamma(gamma, scale):
data = self.envmap.data - self.envmap.data.min();
np.clip(scale * np.power(data, 1./gamma), 0., 255.).astype('uint8').
The power is real exponentiation; on the nonnegative bases produced by the
min subtraction and a nonzero gamma it agrees with np.power. scale defaults
to 1 in the source. -/
noncomputable def tmoGamma (buf : List ℝ) (gamma : ℝ) (scale : ℝ := 1) : List ℕ :=
  let data := buf.map (fun v => v - listMinR buf)
  ((data.map (fun v => scale * v ^ (1 / gamma))).map
    (fun x => clipR x 0 255)).map quantU8R

/-- The directory tree of the round-trip claim: exactly
root/20130619/102639/envmap.exr. -/
def treeC8 : FS :=
  FS.dir "root"
    (FSList.cons
      (FS.dir "20130619"
        (FSList.cons
          (FS.dir "102639" (FSList.cons (FS.file "envmap.exr") FSList.nil))
          FSList.nil))
      FSList.nil)

/-- A one-day tree whose probe sequence straddles midnight: probes at
01:00:00 and 23:30:00. -/
def treeC6 : FS :=
  FS.dir "20130101"
    (FSList.cons
      (FS.dir "010000" (FSList.cons (FS.file "envmap.exr") FSList.nil))
      (FSList.cons
        (FS.dir "233000" (FSList.cons (FS.file "envmap.exr") FSList.nil))
        FSList.nil))

/-- The interval built over treeC6 (pixel contents are irrelevant to the
nearest-time query). -/
def intervalC6 : SkyInterval :=
  mkSkyInterval [] treeC6 (fun _ => [0])

/-- A one-day tree with three probes. -/
def treeC5 : FS :=
  FS.dir "20130101"
    (FSList.cons
      (FS.dir "080000" (FSList.cons (FS.file "envmap.exr") FSList.nil))
      (FSList.cons
        (FS.dir "120000" (FSList.cons (FS.file "envmap.exr") FSList.nil))
        (FSList.cons
          (FS.dir "160000" (FSList.cons (FS.file "envmap.exr") FSList.nil))
          FSList.nil)))

/-- A decoder under which exactly the 12:00:00 probe of treeC5 saturates
(maximum pixel radiance 6000 > 5000; the others only reach 100). -/
def decodeC5 : List String → List ℚ :=
  fun p => if p = ["20130101", "120000", "envmap.exr"] then [6000] else [100]

/-- The interval built over treeC5: three probes, exactly one of which has
sun_visible. -/
def intervalC5 : SkyInterval :=
  mkSkyInterval [] treeC5 decodeC5

/-- The one-day tree of the spec's nearest-probe scenario: probes at
10:26:39 and 15:00:00. -/
def treeC1 : FS :=
  FS.dir "20130619"
    (FSList.cons
      (FS.dir "102639" (FSList.cons (FS.file "envmap.exr") FSList.nil))
      (FSList.cons
        (FS.dir "150000" (FSList.cons (FS.file "envmap.exr") FSList.nil))
        FSList.nil))

/-- The interval of the spec's nearest-probe scenario (pixel contents
irrelevant to the nearest-time query). -/
def intervalC1 : SkyInterval :=
  mkSkyInterval [] treeC1 (fun _ => [0])


/-! ## Helper lemmas -/

theorem listMinI_le_of_mem (l : List ℤ) : ∀ x ∈ l, listMinI l ≤ x := by
  induction l with
  | nil => intro x hx; cases hx
  | cons a t ih =>
    intro x hx
    rcases List.mem_cons.mp hx with h | h
    · subst h
      cases t with
      | nil => simp [listMinI]
      | cons b t2 => exact min_le_left _ _
    · cases t with
      | nil => cases h
      | cons b t2 =>
        exact le_trans (min_le_right a (listMinI (b :: t2))) (ih x h)

theorem argminIdx_lt_length (l : List ℤ) (hne : l ≠ []) : argminIdx l < l.length := by
  induction l with
  | nil => cases hne rfl
  | cons a t ih =>
    cases t with
    | nil => simp [argminIdx]
    | cons b t2 =>
      by_cases h : a ≤ listMinI (b :: t2)
      · simp [argminIdx, h]
      · have := ih (by simp)
        simp only [argminIdx, if_neg h]
        simp only [List.length_cons] at this ⊢
        omega

theorem getD_eq_get {α : Type} (l : List α) (d : α) (i : ℕ) (h : i < l.length) :
    l.getD i d = l.get ⟨i, h⟩ := by
  simp [List.getD_eq_getElem?_getD, List.getElem?_eq_getElem h]

theorem getD_argminIdx (l : List ℤ) (hne : l ≠ []) :
    l.getD (argminIdx l) 0 = listMinI l := by
  induction l with
  | nil => cases hne rfl
  | cons a t ih =>
    cases t with
    | nil => simp [argminIdx, listMinI]
    | cons b t2 =>
      by_cases h : a ≤ listMinI (b :: t2)
      · have : listMinI (a :: b :: t2) = a := by
          simp [listMinI, min_eq_left h]
        simp [argminIdx, if_pos h, this]
      · have hmin : listMinI (a :: b :: t2) = listMinI (b :: t2) := by
          show min a (listMinI (b :: t2)) = listMinI (b :: t2)
          exact min_eq_right (le_of_not_le h)
        simp only [argminIdx, if_neg h]
        rw [List.getD_cons_succ, ih (by simp), hmin]

theorem listMinI_lt_getD_of_lt_argminIdx (l : List ℤ) (j : ℕ) (hj : j < argminIdx l) :
    listMinI l < l.getD j 0 := by
  induction l generalizing j with
  | nil => simp [argminIdx] at hj
  | cons a t ih =>
    cases t with
    | nil => simp [argminIdx] at hj
    | cons b t2 =>
      by_cases h : a ≤ listMinI (b :: t2)
      · simp [argminIdx, if_pos h] at hj
      · have hmin : listMinI (a :: b :: t2) = listMinI (b :: t2) := by
          show min a (listMinI (b :: t2)) = listMinI (b :: t2)
          exact min_eq_right (le_of_not_le h)
        simp only [argminIdx, if_neg h] at hj
        cases j with
        | zero =>
          rw [List.getD_cons_zero, hmin]
          exact lt_of_not_le h
        | succ j2 =>
          rw [List.getD_cons_succ, hmin]
          exact ih j2 (by omega)

theorem closestProbe_eq_ok (iv : SkyInterval) (hours minutes seconds q : ℤ)
    (hq : mkDatetimeSecs hours minutes seconds = some q)
    (hne : iv.reftimes ≠ [])
    (h2 : argminIdx (iv.reftimes.map (fun t => |q - t|)) < iv.probes.length) :
    iv.closestProbe hours minutes seconds =
      Except.ok (iv.probes.get ⟨argminIdx (iv.reftimes.map (fun t => |q - t|)), h2⟩) := by
  unfold SkyInterval.closestProbe
  rw [hq]
  have hd : (iv.reftimes.map (fun t => |q - t|)) ≠ [] := by simpa using hne
  simp only [if_neg hd, List.getElem?_eq_getElem h2]
  rfl

theorem closestProbe_ok_spec (iv : SkyInterval) (hours minutes seconds : ℤ)
    (hlen : iv.reftimes.length = iv.probes.length)
    (hne : iv.reftimes ≠ [])
    (hh : 0 ≤ hours ∧ hours ≤ 23) (hm : 0 ≤ minutes ∧ minutes ≤ 59)
    (hs : 0 ≤ seconds ∧ seconds ≤ 59) :
    ∃ (i : ℕ) (h1 : i < iv.reftimes.length) (h2 : i < iv.probes.length),
      iv.closestProbe hours minutes seconds = Except.ok (iv.probes.get ⟨i, h2⟩) ∧
      (∀ (j : ℕ) (hj : j < iv.reftimes.length),
        |hours * 3600 + minutes * 60 + seconds - iv.reftimes.get ⟨i, h1⟩| ≤
          |hours * 3600 + minutes * 60 + seconds - iv.reftimes.get ⟨j, hj⟩|) ∧
      (∀ (j : ℕ) (hj : j < iv.reftimes.length), j < i →
        |hours * 3600 + minutes * 60 + seconds - iv.reftimes.get ⟨i, h1⟩| <
          |hours * 3600 + minutes * 60 + seconds - iv.reftimes.get ⟨j, hj⟩|) := by
  have hq : mkDatetimeSecs hours minutes seconds =
      some (hours * 3600 + minutes * 60 + seconds) := by
    unfold mkDatetimeSecs
    rw [if_pos]
    exact ⟨hh.1, hh.2, hm.1, hm.2, hs.1, hs.2⟩
  set q := hours * 3600 + minutes * 60 + seconds with hqdef
  set diffs := iv.reftimes.map (fun t => |q - t|) with hddef
  have hdne : diffs ≠ [] := by simpa [hddef] using hne
  have hdlen : diffs.length = iv.reftimes.length := by simp [hddef]
  have hi : argminIdx diffs < diffs.length := argminIdx_lt_length diffs hdne
  have h1 : argminIdx diffs < iv.reftimes.length := by omega
  have h2 : argminIdx diffs < iv.probes.length := by omega
  have hgetd : ∀ (j : ℕ) (hj : j < iv.reftimes.length),
      diffs.getD j 0 = |q - iv.reftimes.get ⟨j, hj⟩| := by
    intro j hj
    have hj2 : j < diffs.length := by omega
    rw [getD_eq_get diffs 0 j hj2]
    simp [hddef]
  refine ⟨argminIdx diffs, h1, h2, closestProbe_eq_ok iv hours minutes seconds q hq hne h2,
    ?_, ?_⟩
  · intro j hj
    have hj2 : j < diffs.length := by omega
    have hmem : diffs.getD j 0 ∈ diffs := by
      rw [getD_eq_get diffs 0 j hj2]
      exact diffs.get_mem j hj2
    rw [← hgetd (argminIdx diffs) h1, ← hgetd j hj, getD_argminIdx diffs hdne]
    exact listMinI_le_of_mem diffs _ hmem
  · intro j hj hji
    rw [← hgetd (argminIdx diffs) h1, ← hgetd j hj, getD_argminIdx diffs hdne]
    exact listMinI_lt_getD_of_lt_argminIdx diffs j hji

theorem mkSkyInterval_reftimes (cur : List String) (fs : FS)
    (decode : List String → List ℚ) :
    (mkSkyInterval cur fs decode).reftimes =
      (mkSkyInterval cur fs decode).probes.map (fun probe => hmsSecs probe.time) :=
  rfl

theorem mkSkyInterval_reftimes_length (cur : List String) (fs : FS)
    (decode : List String → List ℚ) :
    (mkSkyInterval cur fs decode).reftimes.length =
      (mkSkyInterval cur fs decode).probes.length := by
  rw [mkSkyInterval_reftimes, List.length_map]

/-! ## Claim theorems -/

/-- C1: for every constructed interval with at least one probe and an
in-range queried time-of-day, closestProbe returns the probe at the index
whose stored reference timestamp has the minimum absolute difference in
seconds from the queried time-of-day, and every strictly earlier index has
a strictly larger difference (first-minimum tie-break). -/
theorem closestProbe_min_abs_diff (iv : SkyInterval) (cur : List String) (fs : FS)
    (decode : List String → List ℚ) (hours minutes seconds : ℤ)
    (hiv : iv = mkSkyInterval cur fs decode)
    (hne : iv.probes ≠ [])
    (hh : 0 ≤ hours ∧ hours ≤ 23) (hm : 0 ≤ minutes ∧ minutes ≤ 59)
    (hs : 0 ≤ seconds ∧ seconds ≤ 59) :
    ∃ (i : ℕ) (h1 : i < iv.reftimes.length) (h2 : i < iv.probes.length),
      iv.closestProbe hours minutes seconds = Except.ok (iv.probes.get ⟨i, h2⟩) ∧
      (∀ (j : ℕ) (hj : j < iv.reftimes.length),
        |hours * 3600 + minutes * 60 + seconds - iv.reftimes.get ⟨i, h1⟩| ≤
          |hours * 3600 + minutes * 60 + seconds - iv.reftimes.get ⟨j, hj⟩|) ∧
      (∀ (j : ℕ) (hj : j < iv.reftimes.length), j < i →
        |hours * 3600 + minutes * 60 + seconds - iv.reftimes.get ⟨i, h1⟩| <
          |hours * 3600 + minutes * 60 + seconds - iv.reftimes.get ⟨j, hj⟩|) := by
  have hlen : iv.reftimes.length = iv.probes.length := by
    rw [hiv]
    exact mkSkyInterval_reftimes_length cur fs decode
  have hne2 : iv.reftimes ≠ [] := by
    intro h0
    apply hne
    have hl : iv.probes.length = 0 := by
      rw [← hlen, h0]
      rfl
    exact List.length_eq_zero.mp hl
  exact closestProbe_ok_spec iv hours minutes seconds hlen hne2 hh hm hs

/-- Witness for C1: the spec's scenario, probes at 10:26:39 and 15:00:00
queried at 10:30:00. -/
theorem closestProbe_min_abs_diff_witness :
    (intervalC1 = mkSkyInterval [] treeC1 (fun _ => [0])) ∧
    intervalC1.probes ≠ [] ∧
    (0 ≤ (10:ℤ) ∧ (10:ℤ) ≤ 23) ∧ (0 ≤ (30:ℤ) ∧ (30:ℤ) ≤ 59) ∧
    (0 ≤ (0:ℤ) ∧ (0:ℤ) ≤ 59) ∧
    (∃ (i : ℕ) (h1 : i < intervalC1.reftimes.length)
        (h2 : i < intervalC1.probes.length),
      intervalC1.closestProbe 10 30 0 = Except.ok (intervalC1.probes.get ⟨i, h2⟩) ∧
      (∀ (j : ℕ) (hj : j < intervalC1.reftimes.length),
        |10 * 3600 + 30 * 60 + 0 - intervalC1.reftimes.get ⟨i, h1⟩| ≤
          |10 * 3600 + 30 * 60 + 0 - intervalC1.reftimes.get ⟨j, hj⟩|) ∧
      (∀ (j : ℕ) (hj : j < intervalC1.reftimes.length), j < i →
        |10 * 3600 + 30 * 60 + 0 - intervalC1.reftimes.get ⟨i, h1⟩| <
          |10 * 3600 + 30 * 60 + 0 - intervalC1.reftimes.get ⟨j, hj⟩|)) :=
  ⟨rfl, by decide, by decide, by decide, by decide,
    closestProbe_min_abs_diff intervalC1 [] treeC1 (fun _ => [0]) 10 30 0 rfl
      (by decide) (by decide) (by decide) (by decide)⟩

/-- C2: a constructed interval with zero probes never returns a probe from
closestProbe, and for every in-range queried time-of-day it fails with the
empty-collection error np.argmin raises on an empty sequence. -/
theorem closestProbe_empty_fails (iv : SkyInterval) (cur : List String) (fs : FS)
    (decode : List String → List ℚ)
    (hiv : iv = mkSkyInterval cur fs decode)
    (hempty : iv.probes = []) :
    (∀ (hours minutes seconds : ℤ) (p : SkyProbe),
      iv.closestProbe hours minutes seconds ≠ Except.ok p) ∧
    (∀ hours minutes seconds : ℤ,
      0 ≤ hours ∧ hours ≤ 23 → 0 ≤ minutes ∧ minutes ≤ 59 →
      0 ≤ seconds ∧ seconds ≤ 59 →
      iv.closestProbe hours minutes seconds =
        Except.error SkyError.valueErrorEmptyArgmin) := by
  have hrt : iv.reftimes = [] := by
    rw [hiv, mkSkyInterval_reftimes, ← hiv, hempty]
    rfl
  constructor
  · intro hours minutes seconds p
    unfold SkyInterval.closestProbe
    cases hmk : mkDatetimeSecs hours minutes seconds with
    | none => simp
    | some q => simp [hrt]
  · intro hours minutes seconds hh hm hs
    have hmk : mkDatetimeSecs hours minutes seconds =
        some (hours * 3600 + minutes * 60 + seconds) := by
      unfold mkDatetimeSecs
      rw [if_pos]
      exact ⟨hh.1, hh.2, hm.1, hm.2, hs.1, hs.2⟩
    unfold SkyInterval.closestProbe
    rw [hmk]
    simp [hrt]

/-- Witness for C2: the interval built over an empty day directory. -/
theorem closestProbe_empty_fails_witness :
    (mkSkyInterval [] (FS.dir "20130101" FSList.nil) (fun _ => []) =
      mkSkyInterval [] (FS.dir "20130101" FSList.nil) (fun _ => [])) ∧
    (mkSkyInterval [] (FS.dir "20130101" FSList.nil) (fun _ => [])).probes = [] ∧
    ((∀ (hours minutes seconds : ℤ) (p : SkyProbe),
      (mkSkyInterval [] (FS.dir "20130101" FSList.nil)
        (fun _ => [])).closestProbe hours minutes seconds ≠ Except.ok p) ∧
    (∀ hours minutes seconds : ℤ,
      0 ≤ hours ∧ hours ≤ 23 → 0 ≤ minutes ∧ minutes ≤ 59 →
      0 ≤ seconds ∧ seconds ≤ 59 →
      (mkSkyInterval [] (FS.dir "20130101" FSList.nil)
        (fun _ => [])).closestProbe hours minutes seconds =
        Except.error SkyError.valueErrorEmptyArgmin)) :=
  ⟨rfl, by decide,
    closestProbe_empty_fails (mkSkyInterval [] (FS.dir "20130101" FSList.nil)
      (fun _ => [])) [] (FS.dir "20130101" FSList.nil) (fun _ => []) rfl (by decide)⟩

/-- C10: for every interval, a queried time with hours outside 0..23,
minutes outside 0..59 or seconds outside 0..59 makes closestProbe fail
with the range error the fixed-date datetime constructor raises; it comes
before any probe comparison (the same error is produced whatever the
probes are), and no probe is returned. -/
theorem closestProbe_range_error (iv : SkyInterval) (hours minutes seconds : ℤ)
    (hbad : ¬(0 ≤ hours ∧ hours ≤ 23 ∧ 0 ≤ minutes ∧ minutes ≤ 59 ∧
      0 ≤ seconds ∧ seconds ≤ 59)) :
    iv.closestProbe hours minutes seconds = Except.error SkyError.valueErrorRange ∧
    ∀ p : SkyProbe, iv.closestProbe hours minutes seconds ≠ Except.ok p := by
  have hmk : mkDatetimeSecs hours minutes seconds = none := by
    unfold mkDatetimeSecs
    rw [if_neg hbad]
  constructor
  · unfold SkyInterval.closestProbe
    rw [hmk]
  · intro p
    unfold SkyInterval.closestProbe
    rw [hmk]
    simp

/-- Witness for C10: hours = 24 against a non-empty interval. -/
theorem closestProbe_range_error_witness :
    (¬(0 ≤ (24:ℤ) ∧ (24:ℤ) ≤ 23 ∧ 0 ≤ (0:ℤ) ∧ (0:ℤ) ≤ 59 ∧
      0 ≤ (0:ℤ) ∧ (0:ℤ) ≤ 59)) ∧
    (intervalC1.closestProbe 24 0 0 = Except.error SkyError.valueErrorRange ∧
      ∀ p : SkyProbe, intervalC1.closestProbe 24 0 0 ≠ Except.ok p) :=
  ⟨by decide, closestProbe_range_error intervalC1 24 0 0 (by decide)⟩

/-- C6: a concrete witness of the known cross-midnight limitation. The
interval built over treeC6 stores probes at 01:00:00 and 23:30:00; queried
at 00:00:00, closestProbe returns the 01:00:00 probe (3600 s away on the
fixed date), although the 23:30:00 probe is only 1800 s away in true
wrap-around-midnight elapsed time, because query and stored timestamps are
both anchored to the same fixed calendar date. -/
theorem closestProbe_midnight_wrap_limitation :
    ∃ pa pb : SkyProbe,
      intervalC6.closestProbe 0 0 0 = Except.ok pa ∧
      pa ∈ intervalC6.probes ∧ pb ∈ intervalC6.probes ∧
      pa.time = "010000" ∧ pb.time = "233000" ∧
      circularDistSecs 0 (hmsSecs pb.time) < circularDistSecs 0 (hmsSecs pa.time) := by
  refine ⟨SkyProbe.mk ["20130101", "010000", "envmap.exr"] [0],
    SkyProbe.mk ["20130101", "233000", "envmap.exr"] [0], ?_, ?_, ?_, ?_, ?_, ?_⟩
  · simp [intervalC6, mkSkyInterval, treeC6, walkFS, walkKids, matchFiles,
      SkyInterval.closestProbe, mkDatetimeSecs, hmsSecs, pyInt, sliceStr,
      argminIdx, listMinI, SkyProbe.time]
  · decide
  · decide
  · decide
  · decide
  · decide

/-- C5: for every constructed interval, sun_visibility is the number of
probes whose decoded buffer's maximum radiance exceeds 5000 (sun_visible)
divided by the total number of probes, and 0 when there are none; on the
concrete three-probe interval with exactly one saturated probe it is 1/3. -/
theorem sun_visibility_fraction :
    (∀ (cur : List String) (fs : FS) (decode : List String → List ℚ),
      (mkSkyInterval cur fs decode).sun_visibility =
        if (mkSkyInterval cur fs decode).probes.length = 0 then 0
        else (((mkSkyInterval cur fs decode).probes.filter
                (fun p => p.sun_visible)).length : ℚ) /
             ((mkSkyInterval cur fs decode).probes.length : ℚ)) ∧
    intervalC5.probes.length = 3 ∧
    (intervalC5.probes.filter (fun p => p.sun_visible)).length = 1 ∧
    intervalC5.sun_visibility = 1 / 3 := by
  have hdef : ∀ (cur : List String) (fs : FS) (decode : List String → List ℚ),
      (mkSkyInterval cur fs decode).sun_visibility =
        if (mkSkyInterval cur fs decode).probes.length > 0 then
          (((mkSkyInterval cur fs decode).probes.countP
              (fun x => x.sun_visible) : ℚ) /
            ((mkSkyInterval cur fs decode).probes.length : ℚ))
        else 0 := by
    intro cur fs decode
    rfl
  refine ⟨?_, by decide, by decide, ?_⟩
  · intro cur fs decode
    rw [hdef cur fs decode]
    rcases Nat.eq_zero_or_pos (mkSkyInterval cur fs decode).probes.length with h0 | h0
    · rw [if_neg (by omega), if_pos h0]
    · rw [if_pos h0, if_neg (by omega)]
      rw [List.countP_eq_length_filter]
  · have e1 : (mkSkyInterval [] treeC5 decodeC5).probes.countP
        (fun x => x.sun_visible) = 1 := by decide
    have e2 : (mkSkyInterval [] treeC5 decodeC5).probes.length = 3 := by decide
    show (mkSkyInterval [] treeC5 decodeC5).sun_visibility = 1 / 3
    rw [hdef [] treeC5 decodeC5, e1, e2]
    norm_num

theorem tmoReinhard2002_eq_map (data : List ℚ) (scale : ℚ) :
    tmoReinhard2002 data scale =
      data.map (fun L => quantU8 (clip (scale * L / (1 + L)) 0 255)) := by
  simp [tmoReinhard2002, astypeUint8, npClip, List.map_map, Function.comp]

/-- C3: tmoReinhard2002 is exactly the elementwise computation
clip(scale * L / (1 + L), 0, 255) quantized to unsigned 8-bit integers,
and the default scale is 700. -/
theorem tmoReinhard2002_formula :
    (∀ (data : List ℚ) (scale : ℚ),
      tmoReinhard2002 data scale =
        data.map (fun L => quantU8 (clip (scale * L / (1 + L)) 0 255))) ∧
    (∀ data : List ℚ,
      tmoReinhard2002 data =
        data.map (fun L => quantU8 (clip (700 * L / (1 + L)) 0 255))) :=
  ⟨tmoReinhard2002_eq_map, fun data => tmoReinhard2002_eq_map data 700⟩

theorem reinhard_frac_mono (s a b : ℚ) (hs : 0 < s) (ha : 0 ≤ a) (hab : a ≤ b) :
    s * a / (1 + a) ≤ s * b / (1 + b) := by
  have h1 : (0:ℚ) < 1 + a := by linarith
  have h2 : (0:ℚ) < 1 + b := by linarith
  rw [div_le_div_iff₀ h1 h2]
  nlinarith

theorem quantU8_mono {x y : ℚ} (h : x ≤ y) : quantU8 x ≤ quantU8 y := by
  unfold quantU8
  exact Int.toNat_le_toNat (Int.floor_le_floor h)

theorem clip_mono {x y lo hi : ℚ} (h : x ≤ y) : clip x lo hi ≤ clip y lo hi := by
  unfold clip
  exact max_le_max le_rfl (min_le_min h le_rfl)

theorem quantU8_clip_le_255 (x : ℚ) : quantU8 (clip x 0 255) ≤ 255 := by
  unfold quantU8 clip
  have h : max 0 (min x 255) ≤ (255:ℚ) := max_le (by norm_num) (min_le_right _ _)
  have h2 : ⌊max 0 (min x 255)⌋ ≤ (255:ℤ) := by
    calc ⌊max 0 (min x 255)⌋ ≤ ⌊(255:ℚ)⌋ := Int.floor_le_floor h
    _ = 255 := by norm_num
  exact Int.toNat_le.mpr h2

theorem map_getD_lt {α β : Type} (f : α → β) (l : List α) (i : ℕ)
    (hi : i < l.length) (d : α) (d2 : β) :
    (l.map f).getD i d2 = f (l.getD i d) := by
  rw [getD_eq_get l d i hi, getD_eq_get (l.map f) d2 i (by simpa using hi)]
  simp

/-- C7: on nonnegative radiance and positive scale, tmoReinhard2002 output
is elementwise at most 255 (so within the unsigned 8-bit range),
elementwise monotonically non-decreasing in the radiance buffer, and 0 at
every index where the input radiance is 0. -/
theorem tmoReinhard2002_range_mono_zero (data data2 : List ℚ) (s : ℚ)
    (hs : 0 < s) (hpos : ∀ x ∈ data, 0 ≤ x)
    (hlen : data.length = data2.length)
    (hle : ∀ i, i < data.length → data.getD i 0 ≤ data2.getD i 0) :
    (∀ y ∈ tmoReinhard2002 data s, y ≤ 255) ∧
    (∀ i, i < data.length →
      (tmoReinhard2002 data s).getD i 0 ≤ (tmoReinhard2002 data2 s).getD i 0) ∧
    (∀ i, i < data.length → data.getD i 0 = 0 →
      (tmoReinhard2002 data s).getD i 0 = 0) := by
  refine ⟨?_, ?_, ?_⟩
  · intro y hy
    rw [tmoReinhard2002_eq_map] at hy
    rcases List.mem_map.mp hy with ⟨L, _, rfl⟩
    exact quantU8_clip_le_255 _
  · intro i hi
    have hmem : data.getD i 0 ∈ data := by
      rw [getD_eq_get data 0 i hi]
      exact data.get_mem i hi
    rw [tmoReinhard2002_eq_map, tmoReinhard2002_eq_map,
      map_getD_lt _ data i hi 0 0, map_getD_lt _ data2 i (by omega) 0 0]
    exact quantU8_mono (clip_mono
      (reinhard_frac_mono s _ _ hs (hpos _ hmem) (hle i hi)))
  · intro i hi h0
    rw [tmoReinhard2002_eq_map, map_getD_lt _ data i hi 0 0, h0]
    norm_num [clip, quantU8]

/-- Witness for C7: the buffers [0, 1] and [0, 2] with scale 1. -/
theorem tmoReinhard2002_range_mono_zero_witness :
    (0:ℚ) < 1 ∧ (∀ x ∈ [(0:ℚ), 1], 0 ≤ x) ∧
    ([(0:ℚ), 1].length = [(0:ℚ), 2].length) ∧
    (∀ i, i < [(0:ℚ), 1].length → [(0:ℚ), 1].getD i 0 ≤ [(0:ℚ), 2].getD i 0) ∧
    ((∀ y ∈ tmoReinhard2002 [(0:ℚ), 1] 1, y ≤ 255) ∧
    (∀ i, i < [(0:ℚ), 1].length →
      (tmoReinhard2002 [(0:ℚ), 1] 1).getD i 0 ≤
        (tmoReinhard2002 [(0:ℚ), 2] 1).getD i 0) ∧
    (∀ i, i < [(0:ℚ), 1].length → [(0:ℚ), 1].getD i 0 = 0 →
      (tmoReinhard2002 [(0:ℚ), 1] 1).getD i 0 = 0)) :=
  ⟨by norm_num, by decide, by decide, by decide,
    tmoReinhard2002_range_mono_zero [(0:ℚ), 1] [(0:ℚ), 2] 1 (by norm_num)
      (by decide) (by decide) (by decide)⟩

/-- C9: mean_light_vector always fails with the not-implemented error and
never returns a value. -/
theorem mean_light_vector_not_implemented (p : SkyProbe) :
    p.mean_light_vector = Except.error SkyError.notImplementedError ∧
    ∀ v : List ℚ, p.mean_light_vector ≠ Except.ok v := by
  refine ⟨rfl, ?_⟩
  intro v
  simp [SkyProbe.mean_light_vector]

/-- C8: for the tree containing exactly root/20130619/102639/envmap.exr,
database construction yields exactly one interval, whose date is
"20130619", holding exactly one probe, whose time (re-derived from its
path) is "102639" — whatever the decoder returns for the probe's pixels. -/
theorem skyDB_roundtrip_single_probe :
    ∀ decode : List String → List ℚ,
      (mkSkyDB [] treeC8 decode).intervals.length = 1 ∧
      ∀ iv ∈ (mkSkyDB [] treeC8 decode).intervals,
        iv.date = "20130619" ∧ iv.probes.length = 1 ∧
        ∀ p ∈ iv.probes, p.time = "102639" := by
  intro decode
  refine ⟨rfl, ?_⟩
  intro iv hiv
  have hiv2 : iv = mkSkyInterval ["root"]
      (FS.dir "20130619"
        (FSList.cons
          (FS.dir "102639" (FSList.cons (FS.file "envmap.exr") FSList.nil))
          FSList.nil)) decode := by
    simpa [mkSkyDB, treeC8, FSList.toList, FS.isDir, FS.name] using hiv
  subst hiv2
  refine ⟨rfl, rfl, ?_⟩
  intro p hp
  have hp2 : p = SkyProbe.mk ["root", "20130619", "102639", "envmap.exr"]
      (decode ["root", "20130619", "102639", "envmap.exr"]) := by
    simpa [mkSkyInterval, walkFS, walkKids, matchFiles] using hp
  subst hp2
  rfl

theorem tmoGamma_eq_map (buf : List ℝ) (g s : ℝ) :
    tmoGamma buf g s =
      buf.map (fun v => quantU8R (clipR (s * (v - listMinR buf) ^ (1 / g)) 0 255)) := by
  simp [tmoGamma, List.map_map, Function.comp]

/-- C4: for gamma nonzero, tmoGamma is exactly the elementwise pipeline
subtract the buffer's global minimum, raise to the power 1/gamma, multiply
by scale, clip to [0, 255] and quantize to unsigned 8-bit integers; and
for gamma positive the minimum-valued pixel maps to 0. -/
theorem tmoGamma_formula (buf : List ℝ) (g s : ℝ) (hg : g ≠ 0) :
    tmoGamma buf g s =
      buf.map (fun v =>
        quantU8R (clipR (s * (v - listMinR buf) ^ (1 / g)) 0 255)) ∧
    (0 < g → ∀ i, i < buf.length → buf.getD i 0 = listMinR buf →
      (tmoGamma buf g s).getD i 0 = 0) := by
  refine ⟨tmoGamma_eq_map buf g s, ?_⟩
  intro _hgpos i hi hmin
  rw [tmoGamma_eq_map, map_getD_lt _ buf i hi 0 0, hmin, sub_self]
  have hz : (0:ℝ) ^ (1 / g) = 0 := Real.zero_rpow (one_div_ne_zero hg)
  rw [hz, mul_zero]
  norm_num [clipR, quantU8R]

/-- Witness for C4: the buffer [1, 4] with gamma 2 and scale 1; index 0
holds the minimum. -/
theorem tmoGamma_formula_witness :
    ((2:ℝ) ≠ 0) ∧
    (tmoGamma [(1:ℝ), 4] 2 1 =
      [(1:ℝ), 4].map (fun v =>
        quantU8R (clipR (1 * (v - listMinR [(1:ℝ), 4]) ^ (1 / (2:ℝ))) 0 255)) ∧
    (0 < (2:ℝ) → ∀ i, i < [(1:ℝ), 4].length →
      [(1:ℝ), 4].getD i 0 = listMinR [(1:ℝ), 4] →
      (tmoGamma [(1:ℝ), 4] 2 1).getD i 0 = 0)) :=
  ⟨two_ne_zero, tmoGamma_formula [(1:ℝ), 4] 2 1 two_ne_zero⟩
